import Mathlib

/-
Verification development for the Secret Hitler ELO calculator (src/app.py).

The source is a Streamlit application.  Its core logic is:
  - an Elo rating engine: calculate_expected_score (app.py:198-200) and
    calculate_team_elo_update (app.py:202-231);
  - a Rating Store bound to a Google Sheet: load_player_elos (app.py:71-94)
    and save_player_elos (app.py:96-128);
  - a Match Ledger: save_match_history (app.py:130-163);
  - the commit flow of main (app.py:516-524 validation, 640-676 save path).

Python floats are modelled by real numbers for the engine (which uses the
transcendental 10 ** ((b - a) / 400), i.e. Real.rpow) and by rationals for
the store round-trip (where only data movement and comparisons occur).
Python dicts are modelled as association lists in insertion order.
-/

namespace ShElo

/-- Lookup in an association list, mirroring Python dict lookup
(keys are unique in an actual dict, so first match is the binding). -/
def dictFind {α : Type} (d : List (String × α)) (p : String) : Option α :=
  match d with
  | [] => none
  | q :: rest => if q.1 = p then some q.2 else dictFind rest p

/-- Assignment `d[p] = v` on a Python dict: updates the binding in place when
the key is present (keeping its position), otherwise appends it. -/
def dictSet {α : Type} (d : List (String × α)) (p : String) (v : α) : List (String × α) :=
  if p ∈ d.map Prod.fst then
    d.map (fun q => if q.1 = p then (p, v) else q)
  else d ++ [(p, v)]

/-- Models `st.session_state.player_elos.get(player, 1200)` (app.py:204-205,
223): a player absent from the rating snapshot defaults to baseline 1200. -/
noncomputable def elosGet (elos : List (String × ℝ)) (player : String) : ℝ :=
  (dictFind elos player).getD 1200

/-- Models `calculate_expected_score` (app.py:198-200):
`1 / (1 + 10 ** ((rating_b - rating_a) / 400))`. -/
noncomputable def calculate_expected_score (rating_a rating_b : ℝ) : ℝ :=
  1 / (1 + (10 : ℝ) ^ ((rating_b - rating_a) / 400))

/-- The per-player result dict of `calculate_team_elo_update`
(app.py:225-229): old rating, new rating and the applied change. -/
structure RatingUpdate where
  old_rating : ℝ
  new_rating : ℝ
  change : ℝ

/-- Models `calculate_team_elo_update` (app.py:202-231).  The rating snapshot
(`st.session_state.player_elos` in the source) is passed explicitly as
`elos`.  On an empty team or opponent list, the Python code raises
`ZeroDivisionError` computing `sum(...) / len(...)`; that failure is
modelled as `none` (the spec's `InvalidInput`). -/
noncomputable def calculate_team_elo_update (elos : List (String × ℝ))
    (team_players opposing_players : List String) (won : Bool) (k_factor : ℝ) :
    Option (List (String × RatingUpdate)) :=
  let team_ratings := team_players.map (fun player => elosGet elos player)
  let opponent_ratings := opposing_players.map (fun player => elosGet elos player)
  if team_ratings.length = 0 ∨ opponent_ratings.length = 0 then none
  else
    let team_avg := team_ratings.sum / (team_ratings.length : ℝ)
    let opponent_avg := opponent_ratings.sum / (opponent_ratings.length : ℝ)
    let expected_score := calculate_expected_score team_avg opponent_avg
    let actual_score : ℝ := if won then 1 else 0
    let rating_change := k_factor * (actual_score - expected_score)
    some (team_players.map (fun player =>
      let old_rating := elosGet elos player
      (player, { old_rating := old_rating
                 new_rating := old_rating + rating_change
                 change := rating_change })))

/-- The team average computed at app.py:208-209:
`sum(team_ratings) / len(team_ratings)` over the defaulted ratings. -/
noncomputable def team_avg (elos : List (String × ℝ)) (team : List String) : ℝ :=
  (team.map (elosGet elos)).sum / ((team.map (elosGet elos)).length : ℝ)

/-- The `rating_change` local of app.py:218:
`k_factor * (actual_score - expected_score)`. -/
noncomputable def team_rating_change (elos : List (String × ℝ))
    (team opp : List String) (won : Bool) (k : ℝ) : ℝ :=
  k * ((if won then (1 : ℝ) else 0) -
    calculate_expected_score (team_avg elos team) (team_avg elos opp))

/-- A spreadsheet cell value as surfaced by `worksheet.get_all_records()`:
numeric cells arrive as numbers (modelled by a rational, since floats are
rationals), everything else as text. -/
inductive Cell where
  | num (q : ℚ)
  | text (s : String)
deriving DecidableEq

/-- Python truthiness of a cell value, as used by the guard
`if row.get('Player') and row.get('ELO')` (app.py:84): a number is truthy
iff it is nonzero, a string iff it is nonempty. -/
def Cell.truthy : Cell → Bool
  | Cell.num q => decide (q ≠ 0)
  | Cell.text s => decide (s ≠ "")

/-- Value of a digit string read in base 10. -/
def digitsVal (ds : List Char) : ℕ :=
  ds.foldl (fun acc c => acc * 10 + (c.toNat - 48)) 0

/-- All characters are decimal digits. -/
def allDigits (ds : List Char) : Bool :=
  ds.all (fun c => c.isDigit)

/-- Models Python `float(s)` on a string for the common decimal forms:
optional sign, digits with at most one decimal point, at least one digit.
Exponents, surrounding whitespace, `inf` and `nan` are not modelled (a sheet
cell holding such text would reach this code only through
`get_all_records`, which already converts plainly numeric text). -/
def parseFloatText (s : String) : Option ℚ :=
  let cs := s.toList
  let signRest : ℚ × List Char :=
    match cs with
    | '-' :: r => (-1, r)
    | '+' :: r => (1, r)
    | r => (1, r)
  match signRest.2.splitOn '.' with
  | [ip] =>
    if allDigits ip = true ∧ ip ≠ [] then some (signRest.1 * (digitsVal ip : ℚ))
    else none
  | [ip, fp] =>
    if allDigits ip = true ∧ allDigits fp = true ∧ (ip ≠ [] ∨ fp ≠ []) then
      some (signRest.1 * ((digitsVal ip : ℚ) + (digitsVal fp : ℚ) / (10 ^ fp.length)))
    else none
  | _ => none

/-- Models `float(row['ELO'])` (app.py:86): a numeric cell converts to
itself, a text cell goes through string parsing and may fail (the
`ValueError` branch of app.py:87-89). -/
def Cell.parseFloat : Cell → Option ℚ
  | Cell.num q => some q
  | Cell.text s => parseFloatText s

/-- One data row of the Players worksheet as a `get_all_records` dict.  Only
the `Player` and `ELO` columns are read by the source (app.py:84-86); the
`Last_Updated` column is never read back and is left out of the model. -/
structure PRow where
  player : String
  elo : Cell
deriving DecidableEq

/-- One iteration of the row loop of `load_player_elos` (app.py:83-89):
skip the row unless both `Player` and `ELO` are truthy, then try
`float(row['ELO'])`, skipping the row on parse failure, else bind
`player_elos[row['Player']]`. -/
def loadStep (acc : List (String × ℚ)) (r : PRow) : List (String × ℚ) :=
  if r.player ≠ "" ∧ r.elo.truthy = true then
    match r.elo.parseFloat with
    | some v => dictSet acc r.player v
    | none => acc
  else acc

/-- Models `load_player_elos` (app.py:71-94), the Rating Store `getAll`:
fold the worksheet rows into a dict with the filter of `loadStep`. -/
def load_player_elos (rows : List PRow) : List (String × ℚ) :=
  rows.foldl loadStep []

/-- Models `save_player_elos` (app.py:96-128), the Rating Store `putAll`:
the previous data rows are cleared (app.py:107-108) and one row
`[str(player), float(elo), timestamp]` is written per dict entry in
iteration order (app.py:111-122), so the resulting sheet body is exactly
the mapping rendered as rows. -/
def save_player_elos (m : List (String × ℚ)) : List PRow :=
  m.map (fun pv => { player := pv.1, elo := Cell.num pv.2 })

/-- Casts the store snapshot to the real-valued rating snapshot the engine
computes with. -/
noncomputable def toRealElos (l : List (String × ℚ)) : List (String × ℝ) :=
  l.map (fun pv => (pv.1, (pv.2 : ℝ)))

/-- Free-form metadata of a match record: date, Hitler, end condition,
shooter, shot player, notes (app.py:646-657). -/
structure MatchMeta where
  date : String
  hitler : String
  game_end_condition : String
  shooter : String
  shot_player : String
  notes : String

/-- The match record appended to the Match_History worksheet by
`save_match_history` (app.py:130-163), built from `match_data`
(app.py:646-658). -/
structure MatchRecord where
  liberal_team : List String
  fascist_team : List String
  winning_team : String
  liberal_elo_changes : List (String × ℝ)
  fascist_elo_changes : List (String × ℝ)
  meta : MatchMeta

/-- Durable state of the two collaborator sheets: the Players worksheet
body (Rating Store) and the Match_History rows (Match Ledger). -/
structure SheetsState where
  players_rows : List (String × ℝ)
  match_rows : List MatchRecord

/-- Outcome of a commit attempt: the validation failure of app.py:518-520
(player on both teams), or a committed result reporting the success of each
sub-commit independently (app.py:667-674). -/
inductive CommitOutcome where
  | rosterConflict
  | committed (elo_saved : Bool) (match_saved : Bool)
deriving DecidableEq

/-- The session-state update loop of app.py:642-643:
`player_elos[player] = update['new_rating']` for every player of the merged
update dict. -/
noncomputable def applyUpdates (elos : List (String × ℝ))
    (ups : List (String × RatingUpdate)) : List (String × ℝ) :=
  ups.foldl (fun acc pu => dictSet acc pu.1 pu.2.new_rating) elos

/-- The `match_data` record built at app.py:646-658. -/
noncomputable def buildMatchRecord (liberal_players fascist_players : List String)
    (liberal_won : Bool) (liberal_updates fascist_updates : List (String × RatingUpdate))
    (meta : MatchMeta) : MatchRecord :=
  { liberal_team := liberal_players
    fascist_team := fascist_players
    winning_team := if liberal_won then "Liberal" else "Fascist"
    liberal_elo_changes := liberal_updates.map (fun pu => (pu.1, pu.2.change))
    fascist_elo_changes := fascist_updates.map (fun pu => (pu.1, pu.2.change))
    meta := meta }

/-- Models the `commitMatch` flow of `main`: the roster validation of
app.py:516-520 (`len(all_selected_players) != len(set(all_selected_players))`
reports an error and returns before anything is computed or written), then
the "Apply Updates & Save Match" path of app.py:640-676: both engine calls
(app.py:588-589, the fascist call uses the negated winner flag), the
session-state update, then the two independent sub-commits
`save_player_elos` and `save_match_history`.  Collaborator availability is
abstracted by `storeOk` / `ledgerOk`: when a save raises inside the helper,
the helper returns `False` and the sheet is unchanged.  An engine crash on
an empty roster propagates as `none`. -/
noncomputable def commitMatch (storeOk ledgerOk : Bool) (st : SheetsState)
    (session : List (String × ℝ)) (liberal_players fascist_players : List String)
    (liberal_won : Bool) (k_factor : ℝ) (meta : MatchMeta) :
    Option (SheetsState × List (String × ℝ) × CommitOutcome) :=
  let all_selected_players := liberal_players ++ fascist_players
  if ¬ all_selected_players.Nodup then
    some (st, session, CommitOutcome.rosterConflict)
  else
    match calculate_team_elo_update session liberal_players fascist_players liberal_won k_factor,
          calculate_team_elo_update session fascist_players liberal_players (!liberal_won) k_factor with
    | some liberal_updates, some fascist_updates =>
      let new_session := applyUpdates session (liberal_updates ++ fascist_updates)
      let record := buildMatchRecord liberal_players fascist_players liberal_won
        liberal_updates fascist_updates meta
      some ({ players_rows := if storeOk then new_session else st.players_rows
              match_rows := if ledgerOk then st.match_rows ++ [record] else st.match_rows },
            new_session,
            CommitOutcome.committed storeOk ledgerOk)
    | _, _ => none

/-! ### Engine lemmas -/

/-- The Elo logistic term is positive. -/
lemma rpow_term_pos (a b : ℝ) : (0 : ℝ) < (10 : ℝ) ^ ((b - a) / 400) :=
  Real.rpow_pos_of_pos (by norm_num) _

/-- Swapping the two ratings complements the expected score. -/
lemma expected_score_swap (a b : ℝ) :
    calculate_expected_score b a = 1 - calculate_expected_score a b := by
  unfold calculate_expected_score
  have hpos := rpow_term_pos a b
  have hneg : (10 : ℝ) ^ ((a - b) / 400) = ((10 : ℝ) ^ ((b - a) / 400))⁻¹ := by
    have h : (a - b) / 400 = -((b - a) / 400) := by ring
    rw [h, Real.rpow_neg (by norm_num : (0:ℝ) ≤ 10)]
  rw [hneg]
  set t := (10 : ℝ) ^ ((b - a) / 400) with htdef
  have h1 : (1 : ℝ) + t ≠ 0 := by positivity
  have h2 : t ≠ 0 := ne_of_gt hpos
  have e1 : (1 : ℝ) + t⁻¹ = (1 + t) / t := by
    field_simp
    ring
  have e2 : (1 : ℝ) - 1 / (1 + t) = t / (1 + t) := by
    field_simp
  rw [e1, one_div_div, e2]

/-- The expected score lies strictly between 0 and 1. -/
lemma expected_score_bounds (a b : ℝ) :
    0 < calculate_expected_score a b ∧ calculate_expected_score a b < 1 := by
  unfold calculate_expected_score
  have hpos := rpow_term_pos a b
  constructor
  · positivity
  · rw [div_lt_one (by positivity)]
    linarith

/-- Equal ratings give expected score one half. -/
lemma expected_score_self (a : ℝ) : calculate_expected_score a a = 1 / 2 := by
  unfold calculate_expected_score
  have h : (a - a) / 400 = (0 : ℝ) := by ring
  rw [h, Real.rpow_zero]
  norm_num

/-- Closed form of the engine on non-empty rosters: every team member gets
the same `team_rating_change`, added to that member's defaulted old rating. -/
lemma calc_update_eq (elos : List (String × ℝ)) (team opp : List String)
    (won : Bool) (k : ℝ) (ht : team ≠ []) (ho : opp ≠ []) :
    calculate_team_elo_update elos team opp won k =
      some (team.map (fun player =>
        (player, { old_rating := elosGet elos player
                   new_rating := elosGet elos player + team_rating_change elos team opp won k
                   change := team_rating_change elos team opp won k }))) := by
  have h : ¬ ((team.map (fun player => elosGet elos player)).length = 0 ∨
      (opp.map (fun player => elosGet elos player)).length = 0) := by
    simp [List.length_eq_zero, ht, ho]
  simp only [calculate_team_elo_update]
  rw [if_neg h]
  rfl

/-! ### Claim theorems for the rating engine -/

/-- C1: on non-empty rating sequences, `calculate_team_elo_update` computes
the team and opponent averages as arithmetic means, the expected score as
`1 / (1 + 10 ^ ((opponentAvg - teamAvg) / 400))`, the actual score as 1 on
a win and 0 on a loss, and gives every player the delta
`kFactor * (actualScore - expectedScore)`. -/
theorem elo_update_follows_algorithm (elos : List (String × ℝ))
    (team opp : List String) (won : Bool) (k : ℝ) (ht : team ≠ []) (ho : opp ≠ []) :
    calculate_team_elo_update elos team opp won k =
      some (team.map (fun player =>
        (player,
          { old_rating := elosGet elos player
            new_rating := elosGet elos player +
              k * ((if won then (1 : ℝ) else 0) -
                1 / (1 + (10 : ℝ) ^
                  (((opp.map (elosGet elos)).sum / ((opp.map (elosGet elos)).length : ℝ) -
                    (team.map (elosGet elos)).sum / ((team.map (elosGet elos)).length : ℝ)) / 400)))
            change :=
              k * ((if won then (1 : ℝ) else 0) -
                1 / (1 + (10 : ℝ) ^
                  (((opp.map (elosGet elos)).sum / ((opp.map (elosGet elos)).length : ℝ) -
                    (team.map (elosGet elos)).sum / ((team.map (elosGet elos)).length : ℝ)) / 400))) }))) := by
  rw [calc_update_eq elos team opp won k ht ho]
  simp only [team_rating_change, team_avg, calculate_expected_score]

/-- Witness for C1 at a concrete input. -/
theorem elo_update_follows_algorithm_witness :
    calculate_team_elo_update [] ["A"] ["B"] true 32 =
      some ([("A")].map (fun player =>
        (player,
          { old_rating := elosGet [] player
            new_rating := elosGet [] player +
              32 * ((if true then (1 : ℝ) else 0) -
                1 / (1 + (10 : ℝ) ^
                  (((["B"].map (elosGet [])).sum / ((["B"].map (elosGet [])).length : ℝ) -
                    (["A"].map (elosGet [])).sum / ((["A"].map (elosGet [])).length : ℝ)) / 400)))
            change :=
              32 * ((if true then (1 : ℝ) else 0) -
                1 / (1 + (10 : ℝ) ^
                  (((["B"].map (elosGet [])).sum / ((["B"].map (elosGet [])).length : ℝ) -
                    (["A"].map (elosGet [])).sum / ((["A"].map (elosGet [])).length : ℝ)) / 400))) }))) :=
  elo_update_follows_algorithm [] ["A"] ["B"] true 32
    (List.cons_ne_nil _ _) (List.cons_ne_nil _ _)

/-- C2: with the roles swapped and the winner flag negated, the expected
score complements to 1 exactly, and the deltas of the two engine
invocations with the same k-factor sum to zero for every pair of produced
entries. -/
theorem elo_update_zero_sum (elos : List (String × ℝ)) (A B : List String)
    (won : Bool) (k : ℝ) (hA : A ≠ []) (hB : B ≠ []) :
    calculate_expected_score (team_avg elos B) (team_avg elos A) =
      1 - calculate_expected_score (team_avg elos A) (team_avg elos B)
  ∧ ∃ la lb, calculate_team_elo_update elos A B won k = some la
      ∧ calculate_team_elo_update elos B A (!won) k = some lb
      ∧ ∀ u ∈ la, ∀ v ∈ lb, u.2.change + v.2.change = 0 := by
  refine ⟨expected_score_swap (team_avg elos A) (team_avg elos B), ?_⟩
  refine ⟨_, _, calc_update_eq elos A B won k hA hB, calc_update_eq elos B A (!won) k hB hA, ?_⟩
  intro u hu v hv
  simp only [List.mem_map] at hu hv
  obtain ⟨p, _, rfl⟩ := hu
  obtain ⟨q, _, rfl⟩ := hv
  simp only [team_rating_change]
  rw [expected_score_swap (team_avg elos A) (team_avg elos B)]
  cases won <;> (simp; try ring)

/-- Witness for C2 at a concrete input. -/
theorem elo_update_zero_sum_witness :
    calculate_expected_score (team_avg [] ["b"]) (team_avg [] ["a"]) =
      1 - calculate_expected_score (team_avg [] ["a"]) (team_avg [] ["b"])
  ∧ ∃ la lb, calculate_team_elo_update [] ["a"] ["b"] true 32 = some la
      ∧ calculate_team_elo_update [] ["b"] ["a"] (!true) 32 = some lb
      ∧ ∀ u ∈ la, ∀ v ∈ lb, u.2.change + v.2.change = 0 :=
  elo_update_zero_sum [] ["a"] ["b"] true 32
    (List.cons_ne_nil _ _) (List.cons_ne_nil _ _)

/-- C3: in one engine invocation there is a single delta: every player of
the team receives it, and that player's new rating is the old rating plus
the delta, regardless of the player's individual rating. -/
theorem elo_update_uniform_delta (elos : List (String × ℝ))
    (team opp : List String) (won : Bool) (k : ℝ) (ht : team ≠ []) (ho : opp ≠ []) :
    ∃ delta, calculate_team_elo_update elos team opp won k =
      some (team.map (fun player =>
        (player, { old_rating := elosGet elos player
                   new_rating := elosGet elos player + delta
                   change := delta }))) :=
  ⟨team_rating_change elos team opp won k, calc_update_eq elos team opp won k ht ho⟩

/-- Witness for C3 at a concrete input with unequal prior ratings. -/
theorem elo_update_uniform_delta_witness :
    ∃ delta, calculate_team_elo_update [("a", 1000), ("b", 1400)] ["a", "b"] ["c"] true 32 =
      some [("a", { old_rating := (1000 : ℝ), new_rating := 1000 + delta, change := delta }),
            ("b", { old_rating := (1400 : ℝ), new_rating := 1400 + delta, change := delta })] := by
  obtain ⟨delta, hd⟩ := elo_update_uniform_delta [("a", 1000), ("b", 1400)] ["a", "b"] ["c"]
    true 32 (List.cons_ne_nil _ _) (List.cons_ne_nil _ _)
  refine ⟨delta, ?_⟩
  have hab : ¬ ("a" : String) = "b" := by decide
  rw [hd]
  simp [elosGet, dictFind, hab]

/-- C4: the engine fails exactly on an empty roster (the Python
`ZeroDivisionError` in the mean, the spec's `InvalidInput`); on non-empty
rosters it always produces a result. -/
theorem elo_update_none_iff_empty (elos : List (String × ℝ))
    (team opp : List String) (won : Bool) (k : ℝ) :
    calculate_team_elo_update elos team opp won k = none ↔ team = [] ∨ opp = [] := by
  simp only [calculate_team_elo_update]
  by_cases h : (team.map (fun player => elosGet elos player)).length = 0 ∨
      (opp.map (fun player => elosGet elos player)).length = 0
  · rw [if_pos h]
    simpa [List.length_eq_zero] using h
  · rw [if_neg h]
    simpa [List.length_eq_zero] using h

/-- C7: a player named in the team but absent from the rating snapshot is
never rejected: the defaulted rating 1200 is used as the old rating (also
inside the team averages, which are computed from `elosGet`), and the
returned update for that player reads 1200 before and 1200 plus the team
delta after. -/
theorem unknown_player_baseline (elos : List (String × ℝ))
    (team opp : List String) (won : Bool) (k : ℝ) (p : String)
    (ht : team ≠ []) (ho : opp ≠ []) (hp : dictFind elos p = none) (hmem : p ∈ team) :
    elosGet elos p = 1200
  ∧ ∃ ups, calculate_team_elo_update elos team opp won k = some ups
      ∧ (p, { old_rating := (1200 : ℝ)
              new_rating := 1200 + team_rating_change elos team opp won k
              change := team_rating_change elos team opp won k }) ∈ ups := by
  have h1200 : elosGet elos p = 1200 := by
    simp [elosGet, hp]
  refine ⟨h1200, _, calc_update_eq elos team opp won k ht ho, ?_⟩
  exact List.mem_map.mpr ⟨p, hmem, by rw [h1200]⟩

/-- Witness for C7 at a concrete input. -/
theorem unknown_player_baseline_witness :
    elosGet [] "u" = 1200
  ∧ ∃ ups, calculate_team_elo_update [] ["u"] ["v"] true 32 = some ups
      ∧ ("u", { old_rating := (1200 : ℝ)
                new_rating := 1200 + team_rating_change [] ["u"] ["v"] true 32
                change := team_rating_change [] ["u"] ["v"] true 32 }) ∈ ups :=
  unknown_player_baseline [] ["u"] ["v"] true 32 "u"
    (List.cons_ne_nil _ _) (List.cons_ne_nil _ _) rfl (List.mem_singleton.mpr rfl)

/-- C9: the expected score is strictly between 0 and 1 for all real average
ratings and equals one half at equal averages; in the concrete
equal-average scenario (both sides at the 1200 baseline, A wins, k = 32)
the engine returns expected score one half, delta +16 for the winner and
-16 for the loser. -/
theorem expected_score_and_scenario1 :
    (∀ a b : ℝ, 0 < calculate_expected_score a b ∧ calculate_expected_score a b < 1)
  ∧ (∀ a : ℝ, calculate_expected_score a a = 1 / 2)
  ∧ team_avg [] ["A"] = 1200
  ∧ team_avg [] ["B"] = 1200
  ∧ calculate_expected_score (team_avg [] ["A"]) (team_avg [] ["B"]) = 1 / 2
  ∧ calculate_team_elo_update [] ["A"] ["B"] true 32 =
      some [("A", { old_rating := (1200 : ℝ), new_rating := 1216, change := 16 })]
  ∧ calculate_team_elo_update [] ["B"] ["A"] false 32 =
      some [("B", { old_rating := (1200 : ℝ), new_rating := 1184, change := -16 })] := by
  have havg : ∀ s : String, team_avg [] [s] = 1200 := by
    intro s
    simp [team_avg, elosGet, dictFind]
  have hdeltaA : team_rating_change [] ["A"] ["B"] true 32 = 16 := by
    simp only [team_rating_change, havg, expected_score_self]
    norm_num
  have hdeltaB : team_rating_change [] ["B"] ["A"] false 32 = -16 := by
    simp only [team_rating_change, havg, expected_score_self]
    norm_num
  refine ⟨expected_score_bounds, expected_score_self, havg "A", havg "B", ?_, ?_, ?_⟩
  · rw [havg "A", havg "B", expected_score_self]
  · rw [calc_update_eq [] ["A"] ["B"] true 32 (List.cons_ne_nil _ _) (List.cons_ne_nil _ _)]
    simp [hdeltaA, elosGet, dictFind]
    norm_num
  · rw [calc_update_eq [] ["B"] ["A"] false 32 (List.cons_ne_nil _ _) (List.cons_ne_nil _ _)]
    simp [hdeltaB, elosGet, dictFind]
    norm_num

/-! ### Dict and store lemmas -/

/-- A key is bound iff it occurs among the keys. -/
lemma dictFind_isSome_iff (d : List (String × ℚ)) (q : String) :
    (dictFind d q).isSome ↔ q ∈ d.map Prod.fst := by
  induction d with
  | nil => simp [dictFind]
  | cons pv t ih =>
    rw [dictFind]
    by_cases h : pv.1 = q
    · simp [h]
    · rw [if_neg h, ih]
      simp only [List.map_cons, List.mem_cons]
      constructor
      · exact Or.inr
      · rintro (rfl | hq)
        · exact absurd rfl h
        · exact hq

/-- In-place replacement keeps the key list unchanged. -/
lemma keys_map_replace (d : List (String × ℚ)) (p : String) (v : ℚ) :
    (d.map (fun q => if q.1 = p then (p, v) else q)).map Prod.fst = d.map Prod.fst := by
  induction d with
  | nil => simp
  | cons pv t ih =>
    by_cases h : pv.1 = p <;> simp [h, ih]

/-- A key is bound after `dictSet` iff it is the written key or was bound
before. -/
lemma dictFind_dictSet_isSome (d : List (String × ℚ)) (p : String) (v : ℚ) (q : String) :
    (dictFind (dictSet d p v) q).isSome ↔ q = p ∨ (dictFind d q).isSome := by
  rw [dictSet]
  by_cases hmem : p ∈ d.map Prod.fst
  · rw [if_pos hmem, dictFind_isSome_iff, keys_map_replace, dictFind_isSome_iff]
    constructor
    · exact Or.inr
    · rintro (rfl | h)
      · exact hmem
      · exact h
  · rw [if_neg hmem, dictFind_isSome_iff, dictFind_isSome_iff]
    simp [or_comm, eq_comm]

/-- Key characterization of the row fold of `load_player_elos`: a key is
bound after the fold iff it was bound in the accumulator or some row with
that player name passes the truthiness filter and float conversion. -/
lemma foldl_loadStep_key (rows : List PRow) (acc : List (String × ℚ)) (q : String) :
    (dictFind (rows.foldl loadStep acc) q).isSome ↔
      (dictFind acc q).isSome ∨ ∃ r ∈ rows, r.player = q ∧ r.player ≠ "" ∧
        r.elo.truthy = true ∧ (Cell.parseFloat r.elo).isSome := by
  induction rows generalizing acc with
  | nil => simp
  | cons r t ih =>
    rw [List.foldl_cons, ih]
    by_cases hcond : r.player ≠ "" ∧ r.elo.truthy = true
    · rcases hparse : Cell.parseFloat r.elo with _ | v
      · rw [loadStep, if_pos hcond, hparse]
        simp only [List.mem_cons]
        constructor
        · rintro (h | ⟨s, hs, hrest⟩)
          · exact Or.inl h
          · exact Or.inr ⟨s, Or.inr hs, hrest⟩
        · rintro (h | ⟨s, (rfl | hs), hrest⟩)
          · exact Or.inl h
          · rw [hparse] at hrest
            simp at hrest
          · exact Or.inr ⟨s, hs, hrest⟩
      · rw [loadStep, if_pos hcond, hparse, dictFind_dictSet_isSome]
        simp only [List.mem_cons]
        constructor
        · rintro ((rfl | h) | ⟨s, hs, hrest⟩)
          · exact Or.inr ⟨r, Or.inl rfl, rfl, hcond.1, hcond.2, by rw [hparse]; rfl⟩
          · exact Or.inl h
          · exact Or.inr ⟨s, Or.inr hs, hrest⟩
        · rintro (h | ⟨s, (rfl | hs), hrest⟩)
          · exact Or.inl (Or.inr h)
          · exact Or.inl (Or.inl hrest.1.symm)
          · exact Or.inr ⟨s, hs, hrest⟩
    · rw [loadStep, if_neg hcond]
      simp only [List.mem_cons]
      constructor
      · rintro (h | ⟨s, hs, hrest⟩)
        · exact Or.inl h
        · exact Or.inr ⟨s, Or.inr hs, hrest⟩
      · rintro (h | ⟨s, (rfl | hs), hrest⟩)
        · exact Or.inl h
        · exact absurd ⟨hrest.2.1, hrest.2.2.1⟩ hcond
        · exact Or.inr ⟨s, hs, hrest⟩

/-- Writing a fresh key appends it. -/
lemma dictSet_of_not_mem (d : List (String × ℚ)) (p : String) (v : ℚ)
    (h : p ∉ d.map Prod.fst) : dictSet d p v = d ++ [(p, v)] := by
  rw [dictSet, if_neg h]

/-- Folding the saved rows of a clean mapping (unique keys, no empty name,
no zero rating) over the load filter appends the mapping verbatim. -/
lemma load_save_aux (m : List (String × ℚ)) (acc : List (String × ℚ))
    (hnd : ((acc ++ m).map Prod.fst).Nodup)
    (hm : ∀ pv ∈ m, pv.1 ≠ "" ∧ pv.2 ≠ 0) :
    (save_player_elos m).foldl loadStep acc = acc ++ m := by
  induction m generalizing acc with
  | nil => simp [save_player_elos]
  | cons pv t ih =>
    obtain ⟨hp, hv⟩ := hm pv (List.mem_cons_self _ _)
    have hnotin : pv.1 ∉ acc.map Prod.fst := by
      rw [List.map_append] at hnd
      intro hin
      exact (List.nodup_append.mp hnd).2.2 hin (by simp)
    have hstep : loadStep acc ⟨pv.1, Cell.num pv.2⟩ = acc ++ [pv] := by
      have htr : Cell.truthy (Cell.num pv.2) = true := by
        simp [Cell.truthy, hv]
      rw [loadStep, if_pos ⟨hp, htr⟩]
      simp only [Cell.parseFloat]
      rw [dictSet_of_not_mem _ _ _ hnotin]
    have hsave : save_player_elos (pv :: t) =
        { player := pv.1, elo := Cell.num pv.2 } :: save_player_elos t := rfl
    rw [hsave, List.foldl_cons, hstep, ih (acc ++ [pv])
      (by simpa [List.append_assoc] using hnd)
      (fun qv hq => hm qv (List.mem_cons_of_mem _ hq))]
    simp

/-- Lookup commutes with the rational-to-real cast of the snapshot. -/
lemma dictFind_toRealElos (l : List (String × ℚ)) (p : String) :
    dictFind (toRealElos l) p = (dictFind l p).map (fun q => (q : ℝ)) := by
  induction l with
  | nil => rfl
  | cons pv t ih =>
    simp only [toRealElos, List.map_cons, dictFind] at ih ⊢
    by_cases h : pv.1 = p
    · rw [if_pos h, if_pos h]
      rfl
    · rw [if_neg h, if_neg h, ih]

/-! ### Claim theorems for the Rating Store -/

/-- C8 counterexample: the round-trip is not exact for every mapping.  A
rating of exactly 0 is falsy in Python, so its row is dropped by the read
filter of `load_player_elos`; an empty player name is dropped likewise. -/
theorem rating_store_roundtrip_counterexample :
    load_player_elos (save_player_elos [("A", (0 : ℚ))]) ≠ [("A", (0 : ℚ))]
  ∧ dictFind (load_player_elos (save_player_elos [("A", (0 : ℚ))])) "A" = none
  ∧ load_player_elos (save_player_elos [("", (1200 : ℚ))]) ≠ [("", (1200 : ℚ))] := by
  decide

/-- C8 amended: for every mapping whose keys are non-empty strings and
whose ratings are nonzero, reading the store immediately after writing it
returns exactly the mapping (every key present with its value, and no
other keys). -/
theorem rating_store_roundtrip (m : List (String × ℚ))
    (hnd : (m.map Prod.fst).Nodup) (hm : ∀ pv ∈ m, pv.1 ≠ "" ∧ pv.2 ≠ 0) :
    load_player_elos (save_player_elos m) = m := by
  have h := load_save_aux m [] (by simpa using hnd) hm
  simpa [load_player_elos] using h

/-- Witness for the amended C8 at a concrete mapping. -/
theorem rating_store_roundtrip_witness :
    load_player_elos (save_player_elos [("A", (1200 : ℚ)), ("B", 1000)]) =
      [("A", (1200 : ℚ)), ("B", 1000)] :=
  rating_store_roundtrip [("A", (1200 : ℚ)), ("B", 1000)] (by decide) (by decide)

/-- C10: a stored row contributes a binding to the loaded mapping iff its
Player field is non-empty and its ELO field is truthy and converts to a
float; a player with no surviving row is absent from the loaded mapping
and is treated as baseline 1200 by the engine lookup; in particular rows
with rating exactly 0, an empty rating cell, or non-numeric text are
silently omitted. -/
theorem load_filter_characterization :
    (∀ (rows : List PRow) (p : String),
        (dictFind (load_player_elos rows) p).isSome ↔
          ∃ r ∈ rows, r.player = p ∧ r.player ≠ "" ∧ r.elo.truthy = true ∧
            (Cell.parseFloat r.elo).isSome)
  ∧ (∀ (rows : List PRow) (p : String),
        dictFind (load_player_elos rows) p = none →
          elosGet (toRealElos (load_player_elos rows)) p = 1200)
  ∧ dictFind (load_player_elos
      [⟨"A", Cell.num 0⟩, ⟨"B", Cell.text ""⟩, ⟨"C", Cell.text "xy"⟩]) "A" = none
  ∧ dictFind (load_player_elos
      [⟨"A", Cell.num 0⟩, ⟨"B", Cell.text ""⟩, ⟨"C", Cell.text "xy"⟩]) "B" = none
  ∧ dictFind (load_player_elos
      [⟨"A", Cell.num 0⟩, ⟨"B", Cell.text ""⟩, ⟨"C", Cell.text "xy"⟩]) "C" = none := by
  refine ⟨?_, ?_, by decide, by decide, by decide⟩
  · intro rows p
    rw [load_player_elos, foldl_loadStep_key]
    simp [dictFind]
  · intro rows p hnone
    rw [elosGet, dictFind_toRealElos, hnone]
    rfl

/-- Witness for C10: the zero-rated player is dropped on load and then
read back at the 1200 baseline. -/
theorem load_filter_characterization_witness :
    elosGet (toRealElos (load_player_elos [⟨"A", Cell.num 0⟩])) "A" = 1200 :=
  load_filter_characterization.2.1 [⟨"A", Cell.num 0⟩] "A" (by decide)

/-! ### Commit-flow lemmas and claim theorems -/

/-- Computation of `commitMatch` past the validation, given the two engine
results. -/
lemma commitMatch_eq_of_some (storeOk ledgerOk : Bool) (st : SheetsState)
    (session : List (String × ℝ)) (lib fas : List String) (winLib : Bool) (k : ℝ)
    (meta : MatchMeta) (lu fu : List (String × RatingUpdate))
    (hnd : (lib ++ fas).Nodup)
    (hLu : calculate_team_elo_update session lib fas winLib k = some lu)
    (hFu : calculate_team_elo_update session fas lib (!winLib) k = some fu) :
    commitMatch storeOk ledgerOk st session lib fas winLib k meta =
      some ({ players_rows := if storeOk then applyUpdates session (lu ++ fu)
                              else st.players_rows
              match_rows := if ledgerOk then
                  st.match_rows ++ [buildMatchRecord lib fas winLib lu fu meta]
                else st.match_rows },
            applyUpdates session (lu ++ fu),
            CommitOutcome.committed storeOk ledgerOk) := by
  simp only [commitMatch]
  rw [if_neg (not_not_intro hnd), hLu, hFu]

/-- C5: when some player sits on both rosters, `commitMatch` stops at the
validation with a roster conflict, and neither the Rating Store state nor
the Match Ledger state nor the session snapshot is touched. -/
theorem commit_roster_conflict (storeOk ledgerOk : Bool) (st : SheetsState)
    (session : List (String × ℝ)) (lib fas : List String) (winLib : Bool)
    (k : ℝ) (meta : MatchMeta) (p : String) (h1 : p ∈ lib) (h2 : p ∈ fas) :
    commitMatch storeOk ledgerOk st session lib fas winLib k meta =
      some (st, session, CommitOutcome.rosterConflict) := by
  have h : ¬ (lib ++ fas).Nodup := by
    intro hnd
    exact (List.nodup_append.mp hnd).2.2 h1 h2
  simp only [commitMatch]
  rw [if_pos h]

/-- Witness for C5: the overlap scenario of the spec, rosters X,Y versus
Y,Z, leaves both sheets exactly as they were. -/
theorem commit_roster_conflict_witness :
    commitMatch true true { players_rows := [], match_rows := [] } []
      ["X", "Y"] ["Y", "Z"] true 32
      { date := "", hitler := "", game_end_condition := "", shooter := ""
        shot_player := "", notes := "" } =
      some ({ players_rows := [], match_rows := [] }, [],
        CommitOutcome.rosterConflict) :=
  commit_roster_conflict true true { players_rows := [], match_rows := [] } []
    ["X", "Y"] ["Y", "Z"] true 32
    { date := "", hitler := "", game_end_condition := "", shooter := ""
      shot_player := "", notes := "" } "Y" (by decide) (by decide)

/-- C6: the two sub-commits are independent and non-atomic, and the result
reports each one separately: with the ratings save succeeding and the
ledger append failing the outcome reports ratings updated and match not
logged while the ledger rows are untouched, and symmetrically with the
roles reversed the outcome reports match logged and ratings not updated
while the Players rows are untouched. -/
theorem commit_reports_each_sub_commit (st : SheetsState)
    (session : List (String × ℝ)) (lib fas : List String) (winLib : Bool)
    (k : ℝ) (meta : MatchMeta)
    (hnd : (lib ++ fas).Nodup) (hl : lib ≠ []) (hf : fas ≠ []) :
    (∃ res, commitMatch true false st session lib fas winLib k meta = some res
        ∧ res.2.2 = CommitOutcome.committed true false
        ∧ res.1.match_rows = st.match_rows)
  ∧ (∃ res, commitMatch false true st session lib fas winLib k meta = some res
        ∧ res.2.2 = CommitOutcome.committed false true
        ∧ res.1.players_rows = st.players_rows) := by
  have hLu := calc_update_eq session lib fas winLib k hl hf
  have hFu := calc_update_eq session fas lib (!winLib) k hf hl
  constructor
  · exact ⟨_, commitMatch_eq_of_some true false st session lib fas winLib k meta
      _ _ hnd hLu hFu, rfl, rfl⟩
  · exact ⟨_, commitMatch_eq_of_some false true st session lib fas winLib k meta
      _ _ hnd hLu hFu, rfl, rfl⟩

/-- Witness for C6 at a concrete input. -/
theorem commit_reports_each_sub_commit_witness :
    (∃ res, commitMatch true false { players_rows := [], match_rows := [] } []
        ["X"] ["Y"] true 32
        { date := "", hitler := "", game_end_condition := "", shooter := ""
          shot_player := "", notes := "" } = some res
        ∧ res.2.2 = CommitOutcome.committed true false
        ∧ res.1.match_rows = ({ players_rows := [], match_rows := [] } : SheetsState).match_rows)
  ∧ (∃ res, commitMatch false true { players_rows := [], match_rows := [] } []
        ["X"] ["Y"] true 32
        { date := "", hitler := "", game_end_condition := "", shooter := ""
          shot_player := "", notes := "" } = some res
        ∧ res.2.2 = CommitOutcome.committed false true
        ∧ res.1.players_rows = ({ players_rows := [], match_rows := [] } : SheetsState).players_rows) :=
  commit_reports_each_sub_commit { players_rows := [], match_rows := [] } []
    ["X"] ["Y"] true 32
    { date := "", hitler := "", game_end_condition := "", shooter := ""
      shot_player := "", notes := "" }
    (by decide) (List.cons_ne_nil _ _) (List.cons_ne_nil _ _)

end ShElo
